import Mathlib

/-!
Verification of the torchgfn container and environment layer.

This file is a shallow embedding, in Lean 4, of the parts of the repository
that the claims C1-C10 are about:

* `src/gfn/actions.py` — the `Actions` batch abstraction (`extend`,
  `extend_with_dummy_actions`, `is_dummy`);
* `src/gfn/containers/transitions.py` — the `Transitions` container
  (`__init__`, the lazy `log_rewards` property, `all_log_rewards`, `extend`);
* `src/gfn/envs/env.py` — the top-level `Env.step` / `Env.validate_actions`
  wrappers and `DiscreteEnv.make_Actions_class`;
* `src/gfn/gym/hypergrid.py` — the `HyperGrid` enumeration and reward code.

Tensors with a one-dimensional batch shape are modelled as Lean lists (one
element per batch row); tensors with a two-dimensional `(time, trajectory)`
batch shape are modelled as lists of rows.  Floating-point rewards are
modelled over `ℚ` where the claim is about concrete numeric values
(HyperGrid), and over an abstract value type `V` with an explicit bottom
element standing for `-inf` where the claim is about dataflow only.
Python exceptions are modelled with `Except`.
-/

namespace TorchGfn

/-! ## Generic list helpers (boolean-mask indexing and masked assignment)

`maskFilter mask l` models `l[mask]` (boolean-tensor indexing) and
`scatterMask base mask vs` models `base[mask] = vs` (in-place masked
assignment, returning the new tensor). -/

def maskFilter {α : Type} (mask : List Bool) (l : List α) : List α :=
  (List.zip mask l).filterMap (fun p => if p.1 then some p.2 else none)

def scatterMask {α : Type} : List α → List Bool → List α → List α
  | [], _, _ => []
  | base, [], _ => base
  | b :: bs, true :: ms, [] => b :: scatterMask bs ms []
  | _ :: bs, true :: ms, v :: vs => v :: scatterMask bs ms vs
  | b :: bs, false :: ms, vs => b :: scatterMask bs ms vs

/-! ## Actions batches (`src/gfn/actions.py`)

An `Actions` object with a two-dimensional `(time, trajectory)` batch shape
is modelled as `Actions2`: `rows` is the list of time-slices (dimension 0)
and `nTraj` is `batch_shape[1]`.  A rank-1 batch is a plain list.  The
dispatch over batch ranks in `Actions.extend` is modelled by the sum type
`ActionsBatch`, with `rOther` standing for any batch rank other than 1 or 2.
The `NotImplementedError` raised on unsupported ranks (the spec's
`UnsupportedOperation`) is the error value. -/

structure Actions2 (α : Type) where
  nTraj : Nat
  rows : List (List α)
deriving DecidableEq, Repr

inductive ActionsBatch (α : Type) where
  | r1 (xs : List α)
  | r2 (a : Actions2 α)
  | rOther
deriving DecidableEq, Repr

/-- The rank of the batch shape (`len(self.batch_shape)`); `rOther` stands
for all ranks other than 1 and 2, represented here by 0. -/
def ActionsBatch.rank {α : Type} : ActionsBatch α → Nat
  | .r1 _ => 1
  | .r2 _ => 2
  | .rOther => 0

inductive ActionsError where
  | unsupportedOperation
deriving DecidableEq, Repr

/-- `Actions.extend_with_dummy_actions` for a 2-D batch: append
`required_first_dim - batch_shape[0]` time-slices made of dummy actions
(`make_dummy_actions((n, batch_shape[1]))`), or do nothing when the batch is
already long enough. -/
def Actions2.extendWithDummyActions {α : Type} (dummy : α) (a : Actions2 α)
    (requiredFirstDim : Nat) : Actions2 α :=
  if requiredFirstDim ≤ a.rows.length then a
  else
    ⟨a.nTraj,
      a.rows ++
        List.replicate (requiredFirstDim - a.rows.length) (List.replicate a.nTraj dummy)⟩

/-- The 2-D case of `Actions.extend`: both operands are padded with dummy
actions to the maximum time-length, then the tensors are concatenated with
`torch.cat(..., dim=1)` — that is, each time-slice of `self` is concatenated
with the corresponding time-slice of `other` along the trajectory axis. -/
def Actions2.extend {α : Type} (dummy : α) (a b : Actions2 α) : Actions2 α :=
  let m := max a.rows.length b.rows.length
  let a2 := a.extendWithDummyActions dummy m
  let b2 := b.extendWithDummyActions dummy m
  ⟨a.nTraj + b.nTraj, List.zipWith (· ++ ·) a2.rows b2.rows⟩

/-- Top-level `Actions.extend`: concatenate along dimension 0 for two rank-1
batches, pad-and-concatenate for two rank-2 batches, raise for any other
combination of batch ranks. -/
def ActionsBatch.extend {α : Type} (dummy : α) :
    ActionsBatch α → ActionsBatch α → Except ActionsError (ActionsBatch α)
  | .r1 xs, .r1 ys => .ok (.r1 (xs ++ ys))
  | .r2 a, .r2 b => .ok (.r2 (a.extend dummy b))
  | _, _ => .error .unsupportedOperation

/-- Modelled from the spec's words for claim C3 (not from the source): pad
both 2-D operands with dummy actions up to the maximum time-length, then
concatenate them along dimension 0 of the batch. -/
def Actions2.extendDim0Spec {α : Type} (dummy : α) (a b : Actions2 α) : Actions2 α :=
  let m := max a.rows.length b.rows.length
  ⟨a.nTraj,
    (a.extendWithDummyActions dummy m).rows ++ (b.extendWithDummyActions dummy m).rows⟩

/-! ## Discrete actions (`DiscreteEnv.make_Actions_class` and `Actions.is_dummy`)

`DiscreteEnv.make_Actions_class` generates an `Actions` subclass with
`action_shape = (1,)`, `dummy_action = torch.tensor([1.0])` and
`exit_action = torch.tensor([n_actions - 1])`.  A discrete action is
modelled by its single integer component. -/

def discreteDummyAction : Nat := 1

def discreteExitAction (nActions : Nat) : Nat := nActions - 1

/-- `Actions.is_dummy`: elementwise comparison of the batch with the
repeated `dummy_action`, reduced over the (here trivial) action dimensions. -/
def actionsIsDummy (batch : List Nat) : List Bool :=
  batch.map (fun a => decide (a = discreteDummyAction))

/-! ## Transitions container (`src/gfn/containers/transitions.py`)

`Transitions` holds aligned one-dimensional batches of parents, actions,
terminating flags, and children, plus the lazily memoized `_log_rewards`
cache and the optional `log_probs` field (`none` models Python `None`).
`hasConditioning` records whether a `conditioning` tensor is present (its
contents are never combined by the modelled operations, only tested for
presence).  The reward interface of the owning environment is `REnv`:
`logRewardB` models `env.log_reward(batch)` and `logOfRewardB` models the
composite `torch.log(env.reward(batch))`; either may raise, and
`RewardError.notImpl` stands for Python's `NotImplementedError` (the only
exception the `log_rewards` property catches). -/

inductive RewardError where
  | notImpl
  | other
deriving DecidableEq, Repr

structure REnv (S V : Type) where
  sf : S
  logRewardB : List S → Except RewardError (List V)
  logOfRewardB : List S → Except RewardError (List V)

structure Transitions (S A V : Type) where
  isBackward : Bool
  hasConditioning : Bool
  states : List S
  actions : List A
  isTerminating : List Bool
  nextStates : List S
  logRewardsCache : Option (List V)
  logProbs : Option (List V)
deriving DecidableEq, Repr

def Transitions.nTransitions {S A V : Type} (t : Transitions S A V) : Nat :=
  t.states.length

/-- `Transitions.terminating_states`: `self.states[self.is_terminating]`. -/
def Transitions.terminatingStates {S A V : Type} (t : Transitions S A V) : List S :=
  maskFilter t.isTerminating t.states

/-- A `Transitions` created by `__init__` with all batch arguments `None`
(the "empty container that can be populated on the go"): empty batches, and
both optional fields initialized to empty tensors rather than `None`. -/
def Transitions.emptyOf {S A V : Type} (isBackward : Bool) : Transitions S A V :=
  { isBackward := isBackward
    hasConditioning := false
    states := []
    actions := []
    isTerminating := []
    nextStates := []
    logRewardsCache := some []
    logProbs := some [] }

/-- The lazy `Transitions.log_rewards` property.  Backward transitions
return `None`.  Otherwise, on a cache miss, `_log_rewards` is first set to
a `-inf`-filled tensor (`neg`), then the terminating positions are
overwritten with `env.log_reward(self.terminating_states)`, falling back to
`log(env.reward(...))` if `log_reward` raises `NotImplementedError`.  The
result is the returned value (or escaping exception) paired with the
post-call object; note that when an exception other than
`NotImplementedError` escapes, the cache keeps the `-inf`-filled tensor. -/
def Transitions.logRewardsGet {S A V : Type} (env : REnv S V) (neg : V)
    (t : Transitions S A V) :
    Except RewardError (Option (List V)) × Transitions S A V :=
  if t.isBackward then (.ok none, t)
  else
    match t.logRewardsCache with
    | some lr => (.ok (some lr), t)
    | none =>
      let base := List.replicate t.states.length neg
      match env.logRewardB t.terminatingStates with
      | .ok vs =>
        let lr := scatterMask base t.isTerminating vs
        (.ok (some lr), { t with logRewardsCache := some lr })
      | .error .notImpl =>
        match env.logOfRewardB t.terminatingStates with
        | .ok vs =>
          let lr := scatterMask base t.isTerminating vs
          (.ok (some lr), { t with logRewardsCache := some lr })
        | .error e => (.error e, { t with logRewardsCache := some base })
      | .error .other => (.error .other, { t with logRewardsCache := some base })

/-- `Transitions.all_log_rewards`: raises for backward transitions;
otherwise builds an `(n, 2)` tensor filled with `-inf` and overwrites the
rows whose `next_states` entry is not the sink state with the log-rewards
of the parent (column 0) and of the child (column 1), falling back to
`log(reward(...))` for both columns when `log_reward` raises
`NotImplementedError`. -/
def Transitions.allLogRewards {S A V : Type} [DecidableEq S] (env : REnv S V)
    (neg : V) (t : Transitions S A V) : Except RewardError (List (V × V)) :=
  if t.isBackward then .error .notImpl
  else
    let mask := t.nextStates.map (fun s => decide ¬(s = env.sf))
    let ps := maskFilter mask t.states
    let cs := maskFilter mask t.nextStates
    let base := List.replicate t.states.length neg
    let fallback : Except RewardError (List (V × V)) :=
      match env.logOfRewardB ps with
      | .error e => .error e
      | .ok v0 =>
        match env.logOfRewardB cs with
        | .error e => .error e
        | .ok v1 => .ok (List.zip (scatterMask base mask v0) (scatterMask base mask v1))
    match env.logRewardB ps with
    | .error .notImpl => fallback
    | .error .other => .error .other
    | .ok v0 =>
      match env.logRewardB cs with
      | .error .notImpl => fallback
      | .error .other => .error .other
      | .ok v1 => .ok (List.zip (scatterMask base mask v0) (scatterMask base mask v1))

/-- `Transitions.extend`: raises for conditional transitions; otherwise
concatenates all aligned batches, and combines each optional field by
concatenation when present on both sides and by `None` otherwise. -/
def Transitions.extend {S A V : Type} (t other : Transitions S A V) :
    Except RewardError (Transitions S A V) :=
  if t.hasConditioning then .error .notImpl
  else
    .ok
      { isBackward := t.isBackward
        hasConditioning := t.hasConditioning
        states := t.states ++ other.states
        actions := t.actions ++ other.actions
        isTerminating := t.isTerminating ++ other.isTerminating
        nextStates := t.nextStates ++ other.nextStates
        logRewardsCache :=
          match t.logRewardsCache, other.logRewardsCache with
          | some a, some b => some (a ++ b)
          | _, _ => none
        logProbs :=
          match t.logProbs, other.logProbs with
          | some a, some b => some (a ++ b)
          | _, _ => none }

/-! ## Top-level environment step (`src/gfn/envs/env.py`)

`Env.step` computes `valid_states = ~states.is_sink_state` (a boolean
tensor) and `valid_actions = actions[valid_states]`, and then calls
`self.validate_actions(valid_states, valid_actions)` — passing the boolean
mask tensor itself where `validate_actions` expects a `States` object.
`validate_actions` begins with `assert states.batch_shape ==
actions.batch_shape`; a raw tensor has no `batch_shape` attribute, so this
access raises `AttributeError`.  The argument confusion is modelled by the
sum type `StatesArg`, and the attribute access by `batchShapeOf`, which
fails on the mask variant exactly as the attribute lookup does.  The
remainder of `step` (sink-row passthrough, exit-action handling, and the
`maskless_step` advance) is modelled row-wise in the `.ok` branch. -/

inductive StepError where
  | attributeError
  | assertionError
  | nonValidActions
deriving DecidableEq, Repr

structure CEnv (S A : Type) where
  sf : S
  isExit : A → Bool
  isActionValid : List S → List A → Bool
  masklessStep : S → A → S

inductive StatesArg (S : Type) where
  | obj (l : List S)
  | maskTensor (m : List Bool)

/-- Attribute access `states.batch_shape`: defined for a `States` object,
an `AttributeError` for a raw boolean tensor. -/
def batchShapeOf {S : Type} : StatesArg S → Except StepError Nat
  | .obj l => .ok l.length
  | .maskTensor _ => .error .attributeError

/-- `Env.validate_actions`: asserts equal batch shapes, then defers to
`is_action_valid`. -/
def CEnv.validateActions {S A : Type} (env : CEnv S A) (states : StatesArg S)
    (actions : List A) : Except StepError Bool :=
  match batchShapeOf states with
  | .error e => .error e
  | .ok n =>
    if n = actions.length then
      match states with
      | .obj l => .ok (env.isActionValid l actions)
      | .maskTensor _ => .error .attributeError
    else .error .assertionError

/-- `Env.step` as written in the source: the boolean validity mask is what
gets passed to `validate_actions` as its `states` argument. -/
def CEnv.step {S A : Type} [DecidableEq S] (env : CEnv S A) (states : List S)
    (actions : List A) : Except StepError (List S) :=
  let validStates := states.map (fun s => decide ¬(s = env.sf))
  let validActions := maskFilter validStates actions
  match env.validateActions (.maskTensor validStates) validActions with
  | .error e => .error e
  | .ok valid =>
    if valid then
      .ok (List.zipWith
        (fun s a =>
          if env.isExit a then env.sf
          else if s = env.sf then s
          else env.masklessStep s a)
        states actions)
    else .error .nonValidActions

/-- Modelled from the spec for claim C1 (the spec's §4.2 description of the
top-level `step` wrapper, which the source deviates from by passing the
mask tensor to `validate_actions`): the non-sink rows are validated with
`is_action_valid`, an invalid pair raises `NonValidActionsError`, sink rows
pass through unchanged, exit actions move to the sink state, and the
remaining rows advance by the maskless transition. -/
def CEnv.stepSpec {S A : Type} [DecidableEq S] (env : CEnv S A) (states : List S)
    (actions : List A) : Except StepError (List S) :=
  let validStates := states.map (fun s => decide ¬(s = env.sf))
  if env.isActionValid (maskFilter validStates states) (maskFilter validStates actions) then
    .ok (List.zipWith
      (fun s a =>
        if env.isExit a then env.sf
        else if s = env.sf then s
        else env.masklessStep s a)
      states actions)
  else .error .nonValidActions

/-! ## HyperGrid (`src/gfn/gym/hypergrid.py`)

States are `ndim`-vectors with entries in `{0, ..., height-1}`, modelled as
`List Nat`.  The claim C7 is the concrete scenario `ndim = 2, height = 4`,
so `build_grid`/`all_states` are embedded at `ndim = 2`: before the einops
rearrange, the grid entry at `(a, b)` is `[b, a]` (coordinate `i` of the
grid varies along grid axis `ndim - 1 - i`, by broadcasting of the
unsqueezed `linspace`), and the rearrange `"n1 n2 ndim -> n2 n1 ndim"`
transposes the two grid axes; `all_states` flattens the grid row-major.
Rewards are computed over `ℚ` (exact arithmetic; the float comparisons in
the source are exact at the grid values involved). -/

def hypergridNStates (ndim height : Nat) : Nat := height ^ ndim

def buildGrid2 (height : Nat) : List (List (List Nat)) :=
  ((List.range height).map (fun a => (List.range height).map (fun b => [b, a]))).transpose

def hypergridAllStates2 (height : Nat) : List (List Nat) :=
  (buildGrid2 height).flatten

/-- `HyperGrid.get_states_indices`: dot product of the state with the
canonical base `height ** arange(ndim - 1, -1, -1)`. -/
def getStatesIndices (height ndim : Nat) (s : List Nat) : Nat :=
  (List.zipWith (fun i x => height ^ (ndim - 1 - i) * x) (List.range ndim) s).sum

/-- `HyperGrid.reward` (the `reward_cos = False` branch):
`R0 + (0.25 < ax).prod(-1) * R1 + ((0.3 < ax) * (ax < 0.4)).prod(-1) * R2`
with `ax = |s / (height - 1) - 0.5|`. -/
def hgReward (height : Nat) (R0 R1 R2 : ℚ) (s : List Nat) : ℚ :=
  let ax := s.map (fun x => |(x : ℚ) / ((height : ℚ) - 1) - 1 / 2|)
  R0 + (ax.map (fun a => if (1 / 4 : ℚ) < a then (1 : ℚ) else 0)).prod * R1
    + (ax.map (fun a =>
        (if (3 / 10 : ℚ) < a then (1 : ℚ) else 0) *
          (if a < (2 / 5 : ℚ) then (1 : ℚ) else 0))).prod * R2

/-- `HyperGrid.true_dist_pmf` at `ndim = 2` with the default reward
parameters `R0 = 0.1, R1 = 0.5, R2 = 2.0`: the rewards of `all_states`
normalized by their sum. -/
def trueDistPmf2 (height : Nat) : List ℚ :=
  let rewards := (hypergridAllStates2 height).map (hgReward height (1 / 10) (1 / 2) 2)
  rewards.map (fun r => r / rewards.sum)

/-! ## Concrete instances used by the witness theorems -/

def natToInt (s : Nat) : Int := Int.ofNat s

def c2Env : REnv Nat Int :=
  { sf := 0
    logRewardB := fun l => .ok (l.map natToInt)
    logOfRewardB := fun l => .ok (l.map natToInt) }

def c2Trans : Transitions Nat Nat Int :=
  { isBackward := false
    hasConditioning := false
    states := [5, 6]
    actions := [0, 1]
    isTerminating := [true, false]
    nextStates := [0, 7]
    logRewardsCache := none
    logProbs := none }

def c4Env : REnv Nat Int :=
  { sf := 0
    logRewardB := fun _ => .error .other
    logOfRewardB := fun _ => .error .other }

def c4Trans : Transitions Nat Nat Int :=
  { isBackward := false
    hasConditioning := false
    states := [7]
    actions := [0]
    isTerminating := [true]
    nextStates := [0]
    logRewardsCache := none
    logProbs := none }

def c5Env : REnv Nat Int :=
  { sf := 9
    logRewardB := fun l => .ok (l.map natToInt)
    logOfRewardB := fun _ => .error .notImpl }

def c5Trans : Transitions Nat Nat Int :=
  { isBackward := false
    hasConditioning := false
    states := [3, 4]
    actions := [0, 1]
    isTerminating := [false, true]
    nextStates := [5, 9]
    logRewardsCache := none
    logProbs := none }

def c6Trans : Transitions Nat Nat Int :=
  { isBackward := false
    hasConditioning := false
    states := [1, 2]
    actions := [8, 9]
    isTerminating := [false, true]
    nextStates := [2, 0]
    logRewardsCache := some [-1, 4]
    logProbs := none }

def c8TransA : Transitions Nat Nat Int :=
  { isBackward := false
    hasConditioning := false
    states := [1]
    actions := [3]
    isTerminating := [true]
    nextStates := [0]
    logRewardsCache := none
    logProbs := some [-2] }

def c8TransB : Transitions Nat Nat Int :=
  { isBackward := false
    hasConditioning := false
    states := [2]
    actions := [4]
    isTerminating := [false]
    nextStates := [3]
    logRewardsCache := some [7]
    logProbs := some [-3] }

def c9Env : REnv Nat Int :=
  { sf := 0
    logRewardB := fun _ => .error .other
    logOfRewardB := fun _ => .error .other }

def c9Trans : Transitions Nat Nat Int :=
  { isBackward := true
    hasConditioning := false
    states := [4]
    actions := [2]
    isTerminating := [true]
    nextStates := [1]
    logRewardsCache := some [11]
    logProbs := none }

/-! ## Helper lemmas -/

theorem maskFilter_cons_true {α : Type} (m : List Bool) (x : α) (l : List α) :
    maskFilter (true :: m) (x :: l) = x :: maskFilter m l := by
  simp [maskFilter, List.zip_cons_cons]

theorem maskFilter_cons_false {α : Type} (m : List Bool) (x : α) (l : List α) :
    maskFilter (false :: m) (x :: l) = maskFilter m l := by
  simp [maskFilter, List.zip_cons_cons]

/-- Writing the masked selection of `l`, mapped through `f`, into a tensor of
`neg` values at the masked positions yields the pointwise
`if mask then f x else neg` tensor. This is the list-level content of the
`_log_rewards[mask] = env.log_reward(states[mask])` idiom. -/
theorem scatterMask_filter_map {α β : Type} (f : α → β) (neg : β) :
    ∀ (mask : List Bool) (l : List α), mask.length = l.length →
      scatterMask (List.replicate l.length neg) mask ((maskFilter mask l).map f)
        = List.zipWith (fun m x => if m then f x else neg) mask l := by
  intro mask
  induction mask with
  | nil =>
    intro l hl
    cases l with
    | nil => simp [scatterMask, maskFilter]
    | cons x xs => simp at hl
  | cons m ms ih =>
    intro l hl
    cases l with
    | nil => simp at hl
    | cons x xs =>
      simp only [List.length_cons, Nat.succ.injEq] at hl
      cases m with
      | true =>
        rw [maskFilter_cons_true]
        simpa [scatterMask, List.replicate_succ] using ih xs hl
      | false =>
        rw [maskFilter_cons_false]
        simpa [scatterMask, List.replicate_succ] using ih xs hl

theorem getElem?_zipWith {α β γ : Type} (f : α → β → γ) :
    ∀ (l₁ : List α) (l₂ : List β) (i : Nat),
      (List.zipWith f l₁ l₂)[i]? =
        match l₁[i]?, l₂[i]? with
        | some a, some b => some (f a b)
        | _, _ => none := by
  intro l₁
  induction l₁ with
  | nil => intro l₂ i; simp
  | cons a as ih =>
    intro l₂ i
    cases l₂ with
    | nil => simp
    | cons b bs =>
      cases i with
      | zero => simp
      | succ j => simpa using ih bs j

theorem extendWithDummyActions_rows_length {α : Type} (dummy : α) (a : Actions2 α)
    (req : Nat) (h : a.rows.length ≤ req) :
    (a.extendWithDummyActions dummy req).rows.length = req := by
  unfold Actions2.extendWithDummyActions
  split
  · omega
  · simp only [List.length_append, List.length_replicate]
    omega

theorem extendWithDummyActions_rows_getElem? {α : Type} (dummy : α) (a : Actions2 α)
    (req : Nat) (h : a.rows.length ≤ req) (i : Nat) (hi : i < req) :
    (a.extendWithDummyActions dummy req).rows[i]? =
      some (if h2 : i < a.rows.length then a.rows[i] else List.replicate a.nTraj dummy) := by
  unfold Actions2.extendWithDummyActions
  split
  · have h2 : i < a.rows.length := by omega
    rw [dif_pos h2]
    exact List.getElem?_eq_getElem h2
  · by_cases h2 : i < a.rows.length
    · rw [dif_pos h2]
      simp only
      rw [List.getElem?_append, if_pos h2]
      exact List.getElem?_eq_getElem h2
    · rw [dif_neg h2]
      simp only
      rw [List.getElem?_append, if_neg h2, List.getElem?_replicate, if_pos (by omega)]

/-! ## Claim theorems -/

/-- Claim C1 (code-bug evidence).  The first conjunct evaluates the code:
for every environment and every aligned batch of states and actions, the
top-level `Env.step` raises `AttributeError`, because it passes the boolean
validity mask — not the batch of non-sink states — as the `states` argument
of `validate_actions`, whose `states.batch_shape` access fails on a raw
tensor.  No call can reach the validity check, the `NonValidActionsError`
raise, the sink-row passthrough, or the maskless advance that the claim
describes.  The second conjunct shows the spec-modelled wrapper behaving as
the claim states on a concrete batch (a sink row passed through unchanged,
an exit row moved to the sink state, a live row advanced by the maskless
transition). -/
theorem C1_step_raises_attribute_error :
    (∀ (env : CEnv Nat Nat) (states actions : List Nat),
        env.step states actions = .error .attributeError)
    ∧ CEnv.stepSpec
        ⟨99, fun a => a == 2, fun _ _ => true, fun s a => s + a⟩ [99, 3, 4] [7, 1, 2]
        = .ok [99, 4, 99] := by
  constructor
  · intro env states actions
    simp [CEnv.step, CEnv.validateActions, batchShapeOf]
  · rfl

/-- Claim C9: for backward transitions the `log_rewards` property returns
`None`, raises nothing, leaves the object unchanged, and never invokes the
environment (the result is the same for every environment). -/
theorem C9_backward_log_rewards_none {S A V : Type} (env : REnv S V) (neg : V)
    (t : Transitions S A V) (hb : t.isBackward = true) :
    Transitions.logRewardsGet env neg t = (.ok none, t) := by
  simp [Transitions.logRewardsGet, hb]

/-- Witness for C9: a concrete backward `Transitions` with a terminating
row and a log-rewards tensor supplied at construction, over an environment
whose reward functions raise. -/
theorem C9_backward_log_rewards_none_witness :
    Transitions.logRewardsGet c9Env (-1000) c9Trans = (.ok none, c9Trans) :=
  C9_backward_log_rewards_none c9Env (-1000) c9Trans rfl

/-- Claim C10: the `Actions` class generated by
`DiscreteEnv.make_Actions_class` sets `dummy_action` to the scalar value 1,
so in any environment with more than two actions the genuine (non-exit)
action of index 1 is reported as a dummy action by `is_dummy`. -/
theorem C10_dummy_action_collides (n : Nat) (hn : 2 < n) (batch : List Nat) (i : Nat)
    (hv : batch[i]? = some 1) :
    (actionsIsDummy batch)[i]? = some true
    ∧ discreteDummyAction = 1
    ∧ discreteDummyAction ≠ discreteExitAction n
    ∧ discreteDummyAction < discreteExitAction n := by
  refine ⟨?_, rfl, ?_, ?_⟩
  · simp [actionsIsDummy, List.getElem?_map, hv, discreteDummyAction]
  · simp only [discreteDummyAction, discreteExitAction]
    omega
  · simp only [discreteDummyAction, discreteExitAction]
    omega

/-- Witness for C10: `n_actions = 3` and the singleton batch holding the
genuine action 1. -/
theorem C10_dummy_action_collides_witness :
    (actionsIsDummy [1])[0]? = some true
    ∧ discreteDummyAction = 1
    ∧ discreteDummyAction ≠ discreteExitAction 3
    ∧ discreteDummyAction < discreteExitAction 3 :=
  C10_dummy_action_collides 3 (by decide) [1] 0 rfl

/-- Claim C4 (code-bug evidence): the lazy computation of `log_rewards`
assigns the `-inf`-filled tensor to `_log_rewards` before the `try` block,
so when the environment's reward computation raises an exception other than
`NotImplementedError` the failed access leaves the cache holding the
all-`-inf` tensor instead of leaving it absent — and a later access returns
that tensor without recomputing. -/
theorem C4_failed_access_corrupts_cache :
    c4Trans.logRewardsCache = none
    ∧ (Transitions.logRewardsGet c4Env (-1000) c4Trans).1 = .error .other
    ∧ (Transitions.logRewardsGet c4Env (-1000) c4Trans).2.logRewardsCache = some [-1000]
    ∧ (Transitions.logRewardsGet c4Env (-1000)
        (Transitions.logRewardsGet c4Env (-1000) c4Trans).2).1 = .ok (some [-1000]) :=
  ⟨rfl, rfl, rfl, rfl⟩

/-- Claim C6: extending a freshly constructed empty `Transitions` of the
same direction with a non-empty, condition-free `Transitions` `t` succeeds
and yields exactly `t`'s states, actions, terminating flags and next
states, with `t`'s length and direction. -/
theorem C6_extend_empty_is_identity {S A V : Type} (t : Transitions S A V)
    (hc : t.hasConditioning = false) (hne : 0 < t.nTransitions) :
    ∃ r, (Transitions.emptyOf t.isBackward).extend t = .ok r
      ∧ r.states = t.states
      ∧ r.actions = t.actions
      ∧ r.isTerminating = t.isTerminating
      ∧ r.nextStates = t.nextStates
      ∧ r.isBackward = t.isBackward
      ∧ r.nTransitions = t.nTransitions := by
  refine ⟨_, rfl, ?_, ?_, ?_, ?_, ?_, ?_⟩ <;>
    simp [Transitions.extend, Transitions.emptyOf, Transitions.nTransitions]

/-- Witness for C6: a concrete non-empty forward `Transitions`. -/
theorem C6_extend_empty_is_identity_witness :
    ∃ r, (Transitions.emptyOf c6Trans.isBackward).extend c6Trans = .ok r
      ∧ r.states = c6Trans.states
      ∧ r.actions = c6Trans.actions
      ∧ r.isTerminating = c6Trans.isTerminating
      ∧ r.nextStates = c6Trans.nextStates
      ∧ r.isBackward = c6Trans.isBackward
      ∧ r.nTransitions = c6Trans.nTransitions :=
  C6_extend_empty_is_identity c6Trans rfl (by decide)

/-- Claim C8: after `t.extend(u)` on condition-free forward transitions,
`log_probs` is the concatenation of both operands' `log_probs` when both
are present and is reset to `None` when either is absent; the cached
log-rewards field behaves the same way. -/
theorem C8_extend_optional_fields {S A V : Type} (t u : Transitions S A V)
    (hfwd : t.isBackward = false) (hc : t.hasConditioning = false) :
    ∃ r, t.extend u = .ok r
      ∧ (∀ a b, t.logProbs = some a → u.logProbs = some b → r.logProbs = some (a ++ b))
      ∧ ((t.logProbs = none ∨ u.logProbs = none) → r.logProbs = none)
      ∧ (∀ a b, t.logRewardsCache = some a → u.logRewardsCache = some b →
          r.logRewardsCache = some (a ++ b))
      ∧ ((t.logRewardsCache = none ∨ u.logRewardsCache = none) →
          r.logRewardsCache = none) := by
  unfold Transitions.extend
  rw [hc]
  simp only [Bool.false_eq_true, if_false]
  refine ⟨_, rfl, ?_, ?_, ?_, ?_⟩
  · intro a b ha hb
    simp [ha, hb]
  · rintro (h | h) <;> rw [h] <;> cases hu : u.logProbs <;> cases ht : t.logProbs <;> simp
  · intro a b ha hb
    simp [ha, hb]
  · rintro (h | h) <;> rw [h] <;>
      cases hu : u.logRewardsCache <;> cases ht : t.logRewardsCache <;> simp

/-- Witness for C8: concrete operands where `log_probs` is present on both
sides (and gets concatenated) while the cached log-rewards are present only
on one side (and get reset to `None`). -/
theorem C8_extend_optional_fields_witness :
    ∃ r, c8TransA.extend c8TransB = .ok r
      ∧ (∀ a b, c8TransA.logProbs = some a → c8TransB.logProbs = some b →
          r.logProbs = some (a ++ b))
      ∧ ((c8TransA.logProbs = none ∨ c8TransB.logProbs = none) → r.logProbs = none)
      ∧ (∀ a b, c8TransA.logRewardsCache = some a → c8TransB.logRewardsCache = some b →
          r.logRewardsCache = some (a ++ b))
      ∧ ((c8TransA.logRewardsCache = none ∨ c8TransB.logRewardsCache = none) →
          r.logRewardsCache = none) :=
  C8_extend_optional_fields c8TransA c8TransB rfl rfl

/-- Claim C3 counterexample: at a concrete pair of 2-D action batches
(time-lengths 1 and 2, one trajectory each), the source's `extend` — which
concatenates along dimension 1 after padding — differs from the claim's
pad-then-concatenate-along-dimension-0: the former yields the 2-by-2 batch
`[[10, 20], [99, 30]]`, the latter the 4-by-1 batch
`[[10], [99], [20], [30]]`. -/
theorem C3_rank2_extend_not_dim0 :
    Actions2.extend 99 ⟨1, [[10]]⟩ ⟨1, [[20], [30]]⟩ ≠
      Actions2.extendDim0Spec 99 ⟨1, [[10]]⟩ ⟨1, [[20], [30]]⟩ := by
  decide

/-- Claim C3 (amended): two rank-1 batches are concatenated along batch
dimension 0; two rank-2 batches are padded with dummy actions up to the
maximum time-length and then concatenated along dimension 1 — each
time-slice of the result is the corresponding (possibly dummy) time-slice
of `a` followed by that of `b`; any other combination of batch ranks fails
with the unsupported-operation error. -/
theorem C3_extend_rank_cases {α : Type} (dummy : α) :
    (∀ xs ys : List α, ActionsBatch.extend dummy (.r1 xs) (.r1 ys) = .ok (.r1 (xs ++ ys)))
    ∧ (∀ a b : Actions2 α,
        ∃ c : Actions2 α, ActionsBatch.extend dummy (.r2 a) (.r2 b) = .ok (.r2 c)
          ∧ c.nTraj = a.nTraj + b.nTraj
          ∧ c.rows.length = max a.rows.length b.rows.length
          ∧ ∀ i : Nat, i < max a.rows.length b.rows.length →
              c.rows[i]? = some
                ((if h : i < a.rows.length then a.rows[i]
                  else List.replicate a.nTraj dummy) ++
                 (if h : i < b.rows.length then b.rows[i]
                  else List.replicate b.nTraj dummy)))
    ∧ (∀ x y : ActionsBatch α,
        ¬(x.rank = 1 ∧ y.rank = 1) → ¬(x.rank = 2 ∧ y.rank = 2) →
        ActionsBatch.extend dummy x y = .error .unsupportedOperation) := by
  refine ⟨fun xs ys => rfl, ?_, ?_⟩
  · intro a b
    refine ⟨a.extend dummy b, rfl, rfl, ?_, ?_⟩
    · show (List.zipWith _ _ _).length = _
      rw [List.length_zipWith,
        extendWithDummyActions_rows_length dummy a _ (le_max_left _ _),
        extendWithDummyActions_rows_length dummy b _ (le_max_right _ _)]
      exact Nat.min_self _
    · intro i hi
      show (List.zipWith _ _ _)[i]? = _
      rw [getElem?_zipWith,
        extendWithDummyActions_rows_getElem? dummy a _ (le_max_left _ _) i hi,
        extendWithDummyActions_rows_getElem? dummy b _ (le_max_right _ _) i hi]
  · intro x y hx hy
    cases x <;> cases y <;>
      first
        | rfl
        | exact (hx ⟨rfl, rfl⟩).elim
        | exact (hy ⟨rfl, rfl⟩).elim

/-- Witness for C3: the rank-1 case and a mismatched-rank failure, at
concrete batches. -/
theorem C3_extend_rank_cases_witness :
    ActionsBatch.extend 99 (ActionsBatch.r1 [1, 2]) (ActionsBatch.r1 [3])
        = .ok (.r1 [1, 2, 3])
    ∧ ActionsBatch.extend 99 (ActionsBatch.r2 ⟨1, [[10]]⟩) (ActionsBatch.rOther)
        = .error .unsupportedOperation :=
  ⟨(C3_extend_rank_cases 99).1 [1, 2] [3],
   (C3_extend_rank_cases 99).2.2 _ _ (by decide) (by decide)⟩

/-- Claim C2: on a forward `Transitions` built without log-rewards (empty
cache) and holding at least one transition, the first access to the
`log_rewards` property returns a tensor of length `n_transitions` equal to
`-inf` at the non-terminating rows and to the environment's log-reward of
the parent state at the terminating rows — where the environment either
implements `log_reward` as the elementwise map of `f`, or raises
`NotImplementedError` from `log_reward` and computes `log(reward(...))` as
the elementwise map of `f` — and the result is memoized: the post-access
object stores the tensor, and any later access returns the stored tensor
with no environment call (the same result for every environment). -/
theorem C2_log_rewards_lazy_memoized {S A V : Type} (env : REnv S V) (neg : V)
    (f : S → V) (t : Transitions S A V)
    (hfwd : t.isBackward = false) (hcache : t.logRewardsCache = none)
    (hne : 0 < t.nTransitions)
    (hlen : t.isTerminating.length = t.states.length)
    (hf : env.logRewardB = (fun l => .ok (l.map f))
        ∨ ((∀ l, env.logRewardB l = .error .notImpl)
            ∧ env.logOfRewardB = (fun l => .ok (l.map f)))) :
    ∃ lr, Transitions.logRewardsGet env neg t
        = (.ok (some lr), { t with logRewardsCache := some lr })
      ∧ lr.length = t.nTransitions
      ∧ (∀ i (hi : i < t.states.length) (hm : i < t.isTerminating.length),
          lr[i]? = some (if t.isTerminating[i] then f t.states[i] else neg))
      ∧ (∀ env2 : REnv S V,
          Transitions.logRewardsGet env2 neg { t with logRewardsCache := some lr }
            = (.ok (some lr), { t with logRewardsCache := some lr })) := by
  obtain ⟨bk, hcond, st, ac, it, ns, cache, lp⟩ := t
  simp only at hfwd hcache hlen ⊢
  subst hfwd
  subst hcache
  refine ⟨List.zipWith (fun m x => if m then f x else neg) it st, ?_, ?_, ?_, ?_⟩
  · have hscatter := scatterMask_filter_map f neg it st hlen
    rcases hf with hA | ⟨hN, hB⟩
    · unfold Transitions.logRewardsGet
      simp only [Transitions.terminatingStates, hA, Bool.false_eq_true, if_false]
      rw [hscatter]
    · unfold Transitions.logRewardsGet
      simp only [Transitions.terminatingStates, hN, hB, Bool.false_eq_true, if_false]
      rw [hscatter]
  · simp only [List.length_zipWith, Transitions.nTransitions, hlen, min_self]
  · intro i hi hm
    rw [getElem?_zipWith, List.getElem?_eq_getElem hm, List.getElem?_eq_getElem hi]
  · intro env2
    rfl

/-- Witness for C2: a concrete forward two-row `Transitions` (one
terminating, one not) over an environment whose `log_reward` is the
elementwise integer cast. -/
theorem C2_log_rewards_lazy_memoized_witness :
    ∃ lr, Transitions.logRewardsGet c2Env (-1000) c2Trans
        = (.ok (some lr), { c2Trans with logRewardsCache := some lr })
      ∧ lr.length = c2Trans.nTransitions
      ∧ (∀ i (hi : i < c2Trans.states.length) (hm : i < c2Trans.isTerminating.length),
          lr[i]? = some (if c2Trans.isTerminating[i]
                          then natToInt c2Trans.states[i] else -1000))
      ∧ (∀ env2 : REnv Nat Int,
          Transitions.logRewardsGet env2 (-1000) { c2Trans with logRewardsCache := some lr }
            = (.ok (some lr), { c2Trans with logRewardsCache := some lr })) :=
  C2_log_rewards_lazy_memoized c2Env (-1000) natToInt c2Trans rfl rfl
    (by decide) rfl (Or.inl rfl)

/-- Claim C5: `all_log_rewards` raises for backward transitions; for
forward transitions — over an environment whose log-reward is the
elementwise map of `f`, either directly through `log_reward` or through the
`log(reward(...))` fallback when `log_reward` raises `NotImplementedError`
— it returns an `(n_transitions, 2)` tensor holding the (parent, child)
log-rewards at every row whose next state is not the sink state, and
`-inf` in both positions at every row whose next state is the sink
state. -/
theorem C5_all_log_rewards_rows {S A V : Type} [DecidableEq S] (env : REnv S V)
    (neg : V) (f : S → V) (t : Transitions S A V)
    (hlen : t.nextStates.length = t.states.length)
    (hf : (env.logRewardB = fun l => .ok (l.map f))
        ∨ ((∀ l, env.logRewardB l = .error .notImpl)
            ∧ env.logOfRewardB = fun l => .ok (l.map f))) :
    (t.isBackward = true → t.allLogRewards env neg = .error .notImpl)
    ∧ (t.isBackward = false →
        ∃ rows, t.allLogRewards env neg = .ok rows
          ∧ rows.length = t.nTransitions
          ∧ ∀ i (hi : i < t.states.length) (hn : i < t.nextStates.length),
              rows[i]? = some (if t.nextStates[i] = env.sf then (neg, neg)
                else (f t.states[i], f t.nextStates[i]))) := by
  constructor
  · intro hb
    simp [Transitions.allLogRewards, hb]
  · intro hb
    obtain ⟨bk, hcond, st, ac, it, ns, cache, lp⟩ := t
    simp only at hb hlen ⊢
    subst hb
    have hmask : (ns.map (fun s => decide ¬(s = env.sf))).length = ns.length :=
      List.length_map ns _
    have h1 := scatterMask_filter_map f neg (ns.map (fun s => decide ¬(s = env.sf))) st
      (by rw [hmask, hlen])
    have h2 := scatterMask_filter_map f neg (ns.map (fun s => decide ¬(s = env.sf))) ns
      (by rw [hmask])
    refine ⟨List.zip
        (List.zipWith (fun m x => if m then f x else neg)
          (ns.map (fun s => decide ¬(s = env.sf))) st)
        (List.zipWith (fun m x => if m then f x else neg)
          (ns.map (fun s => decide ¬(s = env.sf))) ns), ?_, ?_, ?_⟩
    · rcases hf with hA | ⟨hN, hB⟩
      · unfold Transitions.allLogRewards
        simp only [hA, Bool.false_eq_true, if_false]
        rw [h1]
        rw [show st.length = ns.length from hlen.symm, h2]
      · unfold Transitions.allLogRewards
        simp only [hN, hB, Bool.false_eq_true, if_false]
        rw [h1]
        rw [show st.length = ns.length from hlen.symm, h2]
    · simp only [Transitions.nTransitions, List.length_zip, List.length_zipWith,
        List.length_map, hlen, min_self]
    · intro i hi hn
      show (List.zipWith Prod.mk _ _)[i]? = _
      rw [getElem?_zipWith, getElem?_zipWith, getElem?_zipWith]
      rw [List.getElem?_eq_getElem (by rw [List.length_map]; exact hn),
        List.getElem?_eq_getElem hi, List.getElem?_eq_getElem hn]
      simp only [List.getElem_map]
      by_cases hs : ns[i] = env.sf
      · simp [hs]
      · simp [hs]

/-- Witness for C5: a concrete forward two-row `Transitions` over an
environment that implements `log_reward` elementwise; the first row's next
state is not the sink, the second row's is. -/
theorem C5_all_log_rewards_rows_witness :
    (c5Trans.isBackward = true → c5Trans.allLogRewards c5Env (-1000) = .error .notImpl)
    ∧ (c5Trans.isBackward = false →
        ∃ rows, c5Trans.allLogRewards c5Env (-1000) = .ok rows
          ∧ rows.length = c5Trans.nTransitions
          ∧ ∀ i (hi : i < c5Trans.states.length) (hn : i < c5Trans.nextStates.length),
              rows[i]? = some (if c5Trans.nextStates[i] = c5Env.sf then (-1000, -1000)
                else (natToInt c5Trans.states[i], natToInt c5Trans.nextStates[i]))) :=
  C5_all_log_rewards_rows c5Env (-1000) natToInt c5Trans rfl (Or.inl rfl)

/-- The sum of a list divided elementwise by a constant is the sum divided
by that constant. -/
theorem list_sum_map_div (l : List ℚ) (s : ℚ) :
    (l.map (fun r => r / s)).sum = l.sum / s := by
  induction l with
  | nil => simp
  | cons a as ih => simp [ih, add_div]

/-- Every HyperGrid reward with the default parameters is positive: the two
indicator products are nonnegative and `R0 = 1/10` is positive. -/
theorem hgReward_default_pos (height : Nat) (s : List Nat) :
    0 < hgReward height (1 / 10) (1 / 2) 2 s := by
  unfold hgReward
  have h1 : (0 : ℚ) ≤
      ((s.map (fun x => |(x : ℚ) / ((height : ℚ) - 1) - 1 / 2|)).map
        (fun a => if (1 / 4 : ℚ) < a then (1 : ℚ) else 0)).prod := by
    apply List.prod_nonneg
    intro x hx
    simp only [List.mem_map] at hx
    obtain ⟨a, _, rfl⟩ := hx
    split <;> norm_num
  have h2 : (0 : ℚ) ≤
      ((s.map (fun x => |(x : ℚ) / ((height : ℚ) - 1) - 1 / 2|)).map
        (fun a => (if (3 / 10 : ℚ) < a then (1 : ℚ) else 0) *
          (if a < (2 / 5 : ℚ) then (1 : ℚ) else 0))).prod := by
    apply List.prod_nonneg
    intro x hx
    simp only [List.mem_map] at hx
    obtain ⟨a, _, rfl⟩ := hx
    split <;> split <;> norm_num
  nlinarith

/-- Claim C7: the HyperGrid with `ndim = 2, height = 4` has exactly 16
enumerable states; `get_states_indices` applied to `all_states` is
`arange(16)`; and `true_dist_pmf` sums to 1 (exactly, over `ℚ`). -/
theorem C7_hypergrid_2_4_enumeration :
    hypergridNStates 2 4 = 16
    ∧ (hypergridAllStates2 4).map (getStatesIndices 4 2) = List.range 16
    ∧ (trueDistPmf2 4).sum = 1 := by
  refine ⟨rfl, by decide, ?_⟩
  unfold trueDistPmf2
  rw [list_sum_map_div]
  apply div_self
  apply ne_of_gt
  apply List.sum_pos
  · intro r hr
    simp only [List.mem_map] at hr
    obtain ⟨st, _, rfl⟩ := hr
    exact hgReward_default_pos 4 st
  · rw [Ne, List.map_eq_nil_iff]
    decide

end TorchGfn
